import Mathlib

/-!
Shallow embedding of the MediXtract schema fusion tool
(`Schema_Versions/fusing/fuse_schema.py`).

JSON dictionaries are modelled as association lists kept in insertion
order (Python dicts preserve insertion order; assignment to an existing
key updates in place, assignment to a fresh key appends).  Dict-key
membership tests (`k in d`) are modelled by lookup on the association
list.  The ambient clock (`datetime.now()`) is modelled as a function
from read counts to timestamp strings; the fusion state carries how many
reads have happened, and `convert_performance_structure` receives the
timestamp read at its call entry, mirroring the single `datetime.now()`
call at the top of the Python function.
-/

/-- One subject's raw object under the `unmatched` key: the seven
optional boolean sub-keys probed by the fixed rename table of
`convert_performance_structure`.  A field is `none` when the key is
absent from the JSON object. -/
structure UnmatchedData where
  correction : Option Bool
  standardized : Option Bool
  filled_blank : Option Bool
  improved_comment : Option Bool
  missing_docs : Option Bool
  contradictions : Option Bool
  questioned : Option Bool
deriving DecidableEq, Repr

/-- One subject's raw per-subject object (`patient_data` in the source):
the three keys probed by `convert_performance_structure`; a field is
`none` when the key is absent. -/
structure PatientData where
  matched : Option Bool
  blank : Option Bool
  unmatched : Option UnmatchedData
deriving DecidableEq, Repr

/-- One normalized subject outcome (`patient_performance` in the
source): the list of flag names stored as `true`, in the insertion order
of the Python dict, plus the `last_updated` timestamp. -/
structure SubjectOutcome where
  flags : List String
  last_updated : String
deriving DecidableEq, Repr

/-- The fixed rename table of `convert_performance_structure`
(`property_mapping` in the source), in its literal order. -/
def property_mapping : List (String × String) :=
  [("correction", "correction"),
   ("standardized", "standardized"),
   ("filled_blank", "filled_blank"),
   ("improved_comment", "improved_comment"),
   ("missing_docs", "missing_doc"),
   ("contradictions", "contradictions"),
   ("questioned", "questioned")]

/-- Key probing on an `unmatched` sub-object (`old_key in unmatched_data`
followed by reading the value). -/
def UnmatchedData.getKey (u : UnmatchedData) : String → Option Bool
  | "correction" => u.correction
  | "standardized" => u.standardized
  | "filled_blank" => u.filled_blank
  | "improved_comment" => u.improved_comment
  | "missing_docs" => u.missing_docs
  | "contradictions" => u.contradictions
  | "questioned" => u.questioned
  | _ => none

/-- The flag names set to `true` for one subject by the ordered
`matched` / `blank` / `unmatched` precedence of
`convert_performance_structure`.  `Option.getD false` models the Python
test `key in obj and obj[key]` (absent or false both fail). -/
def patientFlags (patient_data : PatientData) : List String :=
  if patient_data.matched.getD false then
    ["match"]
  else if patient_data.blank.getD false then
    []
  else
    match patient_data.unmatched with
    | some unmatched_data =>
        (property_mapping.filter
          (fun p => (unmatched_data.getKey p.1).getD false)).map Prod.snd
    | none => []

/-- The body of `convert_performance_structure`: a subject is kept
exactly when its flag list is non-empty, and a kept subject is stamped
with the per-call `timestamp`. -/
def convert_performance_structure
    (performance_data : List (String × PatientData)) (timestamp : String) :
    List (String × SubjectOutcome) :=
  performance_data.filterMap (fun p =>
    if patientFlags p.2 = [] then none
    else some (p.1, { flags := patientFlags p.2, last_updated := timestamp }))

/-- The non-`performance` fields of a variable definition.  The fusion
code never reads these fields; it only inserts whole placeholder
definitions and writes the `performance` key. -/
structure DefFields where
  anyOf : List String
  default : Option String
  description : String
  group_id : String
  notes : String
  options : Option (List String)
deriving DecidableEq, Repr

/-- A variable definition: its metadata fields plus the optional
`performance` record attached during fusion. -/
structure VariableDefinition where
  fields : DefFields
  performance : Option (List (String × SubjectOutcome))
deriving DecidableEq, Repr

/-- The placeholder factory `create_placeholder_variable` of the
source, with its literal field contents. -/
def create_placeholder_variable (var_name : String) : VariableDefinition :=
  { fields :=
      { anyOf := ["string", "null"]
        default := none
        description :=
          "Placeholder for " ++ var_name ++ " - Please update with proper definition"
        group_id := "unknown"
        notes := "This variable was automatically created as a placeholder because it existed in performance data but not in the main schema. Please update with proper definition, type, and metadata."
        options := none }
    performance := none }

/-- Lookup of a key in an association list (first occurrence). -/
def lookupKey {β : Type} : List (String × β) → String → Option β
  | [], _ => none
  | (k, v) :: rest, key => if k = key then some v else lookupKey rest key

/-- Python dict membership `key in d`. -/
def containsKey {β : Type} (l : List (String × β)) (key : String) : Bool :=
  (lookupKey l key).isSome

/-- The in-place update `properties[var_name]["performance"] = converted`
on an existing key: the first entry with that key gets its `performance`
field overwritten, every other entry is untouched. -/
def setPerf : List (String × VariableDefinition) → String →
    List (String × SubjectOutcome) → List (String × VariableDefinition)
  | [], _, _ => []
  | (k, v) :: rest, key, perf =>
      if k = key then (k, { v with performance := some perf }) :: rest
      else (k, v) :: setPerf rest key perf

/-- One entry of the performance dataset: the optional `performance`
sub-object mapping subject IDs to raw per-subject objects. -/
structure PerfEntry where
  performance : Option (List (String × PatientData))
deriving DecidableEq, Repr

/-- The mutable state of the fusion loop of `fuse_schemas`: the
properties map being built, the counters, the two ordered name lists,
and the number of ambient-clock reads done so far. -/
structure FuseState where
  properties : List (String × VariableDefinition)
  fused_count : Nat
  created_count : Nat
  variables_with_performance : List String
  missing_variables : List String
  clockReads : Nat
deriving Repr

/-- The state at loop entry (lines 56-59 of the source). -/
def initState (properties : List (String × VariableDefinition)) : FuseState :=
  { properties := properties
    fused_count := 0
    created_count := 0
    variables_with_performance := []
    missing_variables := []
    clockReads := 0 }

/-- One iteration of the fusion loop (lines 62-85 of the source) on the
dataset entry `(var_name, raw entry)`.  A call to
`convert_performance_structure` consumes one ambient-clock read. -/
def fuseStep (clock : Nat → String) (st : FuseState) (entry : String × PerfEntry) :
    FuseState :=
  if containsKey st.properties entry.1 then
    match entry.2.performance with
    | some performance_data =>
        let converted :=
          convert_performance_structure performance_data (clock st.clockReads)
        { st with
            properties := setPerf st.properties entry.1 converted
            fused_count := st.fused_count + 1
            variables_with_performance := st.variables_with_performance ++ [entry.1]
            clockReads := st.clockReads + 1 }
    | none => st
  else
    let placeholder := create_placeholder_variable entry.1
    match entry.2.performance with
    | some performance_data =>
        let converted :=
          convert_performance_structure performance_data (clock st.clockReads)
        { st with
            properties :=
              st.properties ++ [(entry.1, { placeholder with performance := some converted })]
            created_count := st.created_count + 1
            variables_with_performance := st.variables_with_performance ++ [entry.1]
            missing_variables := st.missing_variables ++ [entry.1]
            clockReads := st.clockReads + 1 }
    | none =>
        { st with
            properties := st.properties ++ [(entry.1, placeholder)]
            created_count := st.created_count + 1
            variables_with_performance := st.variables_with_performance ++ [entry.1]
            missing_variables := st.missing_variables ++ [entry.1] }

/-- The whole fusion loop over the performance dataset in its iteration
order. -/
def fuse_loop (clock : Nat → String) (properties : List (String × VariableDefinition))
    (performance_schema : List (String × PerfEntry)) : FuseState :=
  performance_schema.foldl (fuseStep clock) (initState properties)

/-- A loaded main schema: either wrapped in a top-level `properties`
field or a bare variable map (lines 45-49 of the source normalize both
to the variable map). -/
inductive MainSchema where
  | wrapped (props : List (String × VariableDefinition))
  | bare (props : List (String × VariableDefinition))
deriving Repr

/-- The variable map extracted from a loaded main schema. -/
def MainSchema.getProperties : MainSchema → List (String × VariableDefinition)
  | .wrapped props => props
  | .bare props => props

/-- The observable result of one run of `fuse_schemas`: `success`
(return `True`; the flag records whether the report-write warning was
printed), `failure` (return `False`), or `crash` (the uncaught
`ZeroDivisionError` of the coverage computation). -/
inductive RunResult where
  | success (reportWarning : Bool)
  | failure
  | crash
deriving DecidableEq, Repr

/-- The environment of one run: what each file operation yields, and
the ambient clock. -/
structure RunEnv where
  mainLoad : Option MainSchema
  perfLoad : Option (List (String × PerfEntry))
  outputWriteOk : Bool
  reportWriteOk : Bool
  clock : Nat → String

/-- What one run produces: its result, the fused document written to
the output path (if the write happened), and the subject-ID list printed
as `patients`. -/
structure RunOutcome where
  result : RunResult
  written : Option (List (String × VariableDefinition))
  patients : List String
deriving Repr

/-- The patient-set computation of lines 110-115: only
`variables_with_performance[:1]` is examined, i.e. only the first
element of the list; if that element's definition has no `performance`
key the set stays empty. -/
def computePatients (properties : List (String × VariableDefinition))
    (variables_with_performance : List String) : List String :=
  match variables_with_performance with
  | [] => []
  | var_name :: _ =>
      match lookupKey properties var_name with
      | some d =>
          match d.performance with
          | some perf => perf.map Prod.fst
          | none => []
      | none => []

/-- The whole `fuse_schemas` run: load both inputs (failure returns
`False`), normalize the wrapper shape, run the fusion loop, write the
output (failure returns `False`), print the summary whose coverage line
divides by `len(properties)` (raising `ZeroDivisionError` when the fused
map is empty), compute the patient set, and, when any variables were
missing, write the report; a report-write failure only prints a warning
and the run still returns `True`. -/
def fuse_schemas (env : RunEnv) : RunOutcome :=
  match env.mainLoad with
  | none => { result := .failure, written := none, patients := [] }
  | some main_schema =>
      match env.perfLoad with
      | none => { result := .failure, written := none, patients := [] }
      | some performance_schema =>
          let st := fuse_loop env.clock main_schema.getProperties performance_schema
          if env.outputWriteOk then
            if st.properties.length = 0 then
              { result := .crash, written := some st.properties, patients := [] }
            else
              let patients := computePatients st.properties st.variables_with_performance
              if st.missing_variables.isEmpty then
                { result := .success false, written := some st.properties, patients := patients }
              else
                { result := .success (!env.reportWriteOk), written := some st.properties,
                  patients := patients }
          else
            { result := .failure, written := none, patients := [] }

/-- The process exit code of `main()`: `exit(1)` when `fuse_schemas`
returns `False`; an uncaught exception also terminates the interpreter
with a nonzero code; implicit success otherwise. -/
def exitCode : RunResult → Nat
  | .success _ => 0
  | .failure => 1
  | .crash => 1

/-- The `last_updated` timestamp stored for one subject of one variable
of a fused document. -/
def subjectTimestamp (props : List (String × VariableDefinition))
    (var_name subject : String) : Option String :=
  match lookupKey props var_name with
  | some d =>
      match d.performance with
      | some perf => (lookupKey perf subject).map SubjectOutcome.last_updated
      | none => none
  | none => none

/-- A raw per-subject object `{"matched": true}`. -/
def sampleMatched : PatientData :=
  { matched := some true, blank := none, unmatched := none }

/-- A raw per-subject object marking `blank` true while also carrying an
`unmatched` sub-object with several true sub-keys (keys the precedence
rule ignores once `blank` wins). -/
def sampleBlankNoisy : PatientData :=
  { matched := some false
    blank := some true
    unmatched := some
      { correction := some true
        standardized := some true
        filled_blank := none
        improved_comment := none
        missing_docs := some true
        contradictions := none
        questioned := some true } }

/-- A pre-existing variable definition used in concrete runs. -/
def sampleDef : VariableDefinition :=
  { fields :=
      { anyOf := ["integer"]
        default := none
        description := "Age in years"
        group_id := "demographics"
        notes := ""
        options := none }
    performance := none }

/-- A run on two placeholder-creating variables, each with a
`performance` sub-object, under a clock whose successive reads differ. -/
def envTwoVars : RunEnv :=
  { mainLoad := some (.bare [])
    perfLoad := some
      [("a", { performance := some [("p1", sampleMatched)] }),
       ("b", { performance := some [("p2", sampleMatched)] })]
    outputWriteOk := true
    reportWriteOk := true
    clock := fun n => toString n }

/-- A run whose first touched variable is a placeholder without a
`performance` sub-object, while the second touched variable has one. -/
def envFirstBare : RunEnv :=
  { mainLoad := some (.bare [])
    perfLoad := some
      [("a", { performance := none }),
       ("b", { performance := some [("p1", sampleMatched)] })]
    outputWriteOk := true
    reportWriteOk := true
    clock := fun _ => "T" }

/-- A run on an empty definition schema and an empty performance
dataset. -/
def envBothEmpty : RunEnv :=
  { mainLoad := some (.bare [])
    perfLoad := some []
    outputWriteOk := true
    reportWriteOk := true
    clock := fun _ => "T" }

/-- A run fusing an empty performance dataset into a one-variable
schema. -/
def envEmptyDataset : RunEnv :=
  { mainLoad := some (.bare [("age", sampleDef)])
    perfLoad := some []
    outputWriteOk := true
    reportWriteOk := true
    clock := fun _ => "T" }

/-- A run that creates one placeholder (so the report is attempted) and
whose report write fails. -/
def envReportFails : RunEnv :=
  { mainLoad := some (.bare [])
    perfLoad := some [("w", { performance := none })]
    outputWriteOk := true
    reportWriteOk := false
    clock := fun _ => "T" }

/-- A second run on empty inputs, exercising the unguarded coverage
division. -/
def envBothEmptyCrash : RunEnv :=
  { mainLoad := some (.bare [])
    perfLoad := some []
    outputWriteOk := true
    reportWriteOk := true
    clock := fun _ => "T" }

/-! ### Association-list lemmas -/

theorem lookupKey_isSome_iff {β : Type} (l : List (String × β)) (key : String) :
    (lookupKey l key).isSome = true ↔ key ∈ l.map Prod.fst := by
  induction l with
  | nil => simp [lookupKey]
  | cons hd tl ih =>
      obtain ⟨k, v⟩ := hd
      by_cases h : k = key
      · simp [lookupKey, h]
      · simp [lookupKey, h, ih, Ne.symm h]

theorem containsKey_iff {β : Type} (l : List (String × β)) (key : String) :
    containsKey l key = true ↔ key ∈ l.map Prod.fst := by
  rw [containsKey]
  exact lookupKey_isSome_iff l key

theorem containsKey_false_iff {β : Type} (l : List (String × β)) (key : String) :
    containsKey l key = false ↔ key ∉ l.map Prod.fst := by
  rw [← containsKey_iff]
  cases containsKey l key <;> simp

theorem lookupKey_append_of_none {β : Type} {l1 : List (String × β)}
    (l2 : List (String × β)) {key : String} (h : lookupKey l1 key = none) :
    lookupKey (l1 ++ l2) key = lookupKey l2 key := by
  induction l1 with
  | nil => rfl
  | cons hd tl ih =>
      obtain ⟨k, v⟩ := hd
      by_cases hk : k = key
      · simp [lookupKey, hk] at h
      · simp only [lookupKey, hk, if_neg hk, List.cons_append] at h ⊢
        exact ih h

theorem lookupKey_append_of_some {β : Type} {l1 : List (String × β)}
    (l2 : List (String × β)) {key : String} {v : β} (h : lookupKey l1 key = some v) :
    lookupKey (l1 ++ l2) key = some v := by
  induction l1 with
  | nil => simp [lookupKey] at h
  | cons hd tl ih =>
      obtain ⟨k, w⟩ := hd
      by_cases hk : k = key
      · simp only [lookupKey, if_pos hk, List.cons_append] at h ⊢
        exact h
      · simp only [lookupKey, if_neg hk, List.cons_append] at h ⊢
        exact ih h

theorem lookupKey_singleton_ne {β : Type} {k key : String} (v : β) (h : k ≠ key) :
    lookupKey [(k, v)] key = none := by
  simp [lookupKey, h]

theorem setPerf_map_fst (l : List (String × VariableDefinition)) (key : String)
    (perf : List (String × SubjectOutcome)) :
    (setPerf l key perf).map Prod.fst = l.map Prod.fst := by
  induction l with
  | nil => rfl
  | cons hd tl ih =>
      obtain ⟨k, v⟩ := hd
      by_cases hk : k = key
      · simp [setPerf, hk]
      · simp [setPerf, hk, ih]

theorem lookupKey_setPerf_ne (l : List (String × VariableDefinition)) (key : String)
    (perf : List (String × SubjectOutcome)) {w : String} (h : w ≠ key) :
    lookupKey (setPerf l key perf) w = lookupKey l w := by
  induction l with
  | nil => rfl
  | cons hd tl ih =>
      obtain ⟨k, v⟩ := hd
      by_cases hk : k = key
      · have hkeyw : ¬ key = w := fun hh => h hh.symm
        simp [setPerf, hk, lookupKey, hkeyw]
      · simp [setPerf, hk, lookupKey, ih]

theorem lookupKey_setPerf_self (l : List (String × VariableDefinition)) (key : String)
    (perf : List (String × SubjectOutcome)) :
    lookupKey (setPerf l key perf) key =
      (lookupKey l key).map (fun d => { d with performance := some perf }) := by
  induction l with
  | nil => rfl
  | cons hd tl ih =>
      obtain ⟨k, v⟩ := hd
      by_cases hk : k = key
      · simp [setPerf, hk, lookupKey]
      · simp [setPerf, hk, lookupKey, ih]

theorem keyval_unique {β : Type} {l : List (String × β)}
    (h : (l.map Prod.fst).Nodup) {s : String} {r r' : β}
    (h1 : (s, r) ∈ l) (h2 : (s, r') ∈ l) : r = r' := by
  induction l with
  | nil => cases h1
  | cons hd tl ih =>
      rw [List.map_cons, List.nodup_cons] at h
      rcases List.mem_cons.mp h1 with he1 | ht1 <;>
        rcases List.mem_cons.mp h2 with he2 | ht2
      · rw [← he1] at he2
        exact (Prod.mk.injEq _ _ _ _ ▸ he2).2.symm
      · exact absurd (List.mem_map_of_mem Prod.fst ht2)
          (by rw [← he1] at h; exact h.1)
      · exact absurd (List.mem_map_of_mem Prod.fst ht1)
          (by rw [← he2] at h; exact h.1)
      · exact ih h.2 ht1 ht2

/-! ### Lemmas about the per-variable normalizer -/

theorem mem_convert {pd : List (String × PatientData)} {ts s : String}
    {a : SubjectOutcome} :
    (s, a) ∈ convert_performance_structure pd ts ↔
      ∃ r, (s, r) ∈ pd ∧ patientFlags r ≠ [] ∧
        a = { flags := patientFlags r, last_updated := ts } := by
  rw [convert_performance_structure, List.mem_filterMap]
  constructor
  · rintro ⟨⟨s', r⟩, hmem, hf⟩
    by_cases h : patientFlags r = []
    · simp [h] at hf
    · rw [if_neg h, Option.some_inj, Prod.mk.injEq] at hf
      obtain ⟨rfl, rfl⟩ := hf
      exact ⟨r, hmem, h, rfl⟩
  · rintro ⟨r, hmem, hne, rfl⟩
    exact ⟨(s, r), hmem, by simp [hne]⟩

theorem convert_outcome {pd : List (String × PatientData)} {ts : String} :
    ∀ p ∈ convert_performance_structure pd ts,
      p.2.last_updated = ts ∧ p.2.flags ≠ [] := by
  rintro ⟨s, a⟩ hp
  obtain ⟨r, -, hne, rfl⟩ := mem_convert.mp hp
  exact ⟨rfl, hne⟩

/-! ### Claims about the placeholder factory and the normalizer -/

/-- C3 counterexample: the placeholder description produced by the code
for variable `age` is not the string the claim specifies — the code
writes a plain hyphen and a capitalised `Please`, not an em dash with a
lowercase `please`. -/
theorem c3_description_counterexample :
    (create_placeholder_variable "age").fields.description ≠
      "Placeholder for age — please update with proper definition" := by
  decide

/-- C3 (amended): for every variable name, the placeholder factory
produces a definition whose type union is exactly string-or-null, whose
default is null, whose description is exactly
`Placeholder for {var_name} - Please update with proper definition`,
whose group_id is `unknown`, with the fixed explanatory notes string,
and with no performance field attached at creation time. -/
theorem c3_placeholder_contract (var_name : String) :
    (create_placeholder_variable var_name).fields.anyOf = ["string", "null"]
    ∧ (create_placeholder_variable var_name).fields.default = none
    ∧ (create_placeholder_variable var_name).fields.description =
        "Placeholder for " ++ var_name ++ " - Please update with proper definition"
    ∧ (create_placeholder_variable var_name).fields.group_id = "unknown"
    ∧ (create_placeholder_variable var_name).fields.notes =
        "This variable was automatically created as a placeholder because it existed in performance data but not in the main schema. Please update with proper definition, type, and metadata."
    ∧ (create_placeholder_variable var_name).performance = none :=
  ⟨rfl, rfl, rfl, rfl, rfl, rfl⟩

/-- C5: a subject appears in the normalized record if and only if the
precedence rules produce a non-empty flag list for it; an included
subject's outcome carries exactly those flags and `last_updated` equal
to the timestamp of this normalization call, and no subject is ever
stored with an empty flag list. -/
theorem c5_subject_inclusion (pd : List (String × PatientData)) (ts : String) :
    (∀ s a, (s, a) ∈ convert_performance_structure pd ts ↔
        ∃ r, (s, r) ∈ pd ∧ patientFlags r ≠ [] ∧
          a = { flags := patientFlags r, last_updated := ts })
    ∧ ∀ p ∈ convert_performance_structure pd ts,
        p.2.last_updated = ts ∧ p.2.flags ≠ [] :=
  ⟨fun _ _ => mem_convert, convert_outcome⟩

/-- Witness for C5 at a concrete one-subject record. -/
theorem c5_subject_inclusion_witness :
    ("p1", ({ flags := ["match"], last_updated := "T" } : SubjectOutcome)) ∈
        convert_performance_structure [("p1", sampleMatched)] "T"
    ∧ ({ flags := ["match"], last_updated := "T" } : SubjectOutcome).last_updated = "T" := by
  have hm : ("p1", ({ flags := ["match"], last_updated := "T" } : SubjectOutcome)) ∈
      convert_performance_structure [("p1", sampleMatched)] "T" := by decide
  exact ⟨hm, ((c5_subject_inclusion [("p1", sampleMatched)] "T").2 _ hm).1⟩

/-- C6: a subject whose raw object marks `blank` true (and does not mark
`matched` true, which would take precedence) never appears in the
normalized record, whatever `unmatched` sub-object co-occurs. -/
theorem c6_blank_subject_dropped (pd : List (String × PatientData)) (ts s : String)
    (r : PatientData) (hnd : (pd.map Prod.fst).Nodup) (hmem : (s, r) ∈ pd)
    (hblank : r.blank = some true) (hmatch : r.matched.getD false = false) :
    ¬ ∃ a, (s, a) ∈ convert_performance_structure pd ts := by
  rintro ⟨a, ha⟩
  rw [mem_convert] at ha
  obtain ⟨r', hmem', hne, -⟩ := ha
  obtain rfl : r' = r := keyval_unique hnd hmem' hmem
  apply hne
  simp [patientFlags, hmatch, hblank]

/-- Witness for C6: a subject marking `blank` true while carrying an
`unmatched` sub-object full of true sub-keys is still dropped. -/
theorem c6_blank_subject_dropped_witness :
    ¬ ∃ a, ("s1", a) ∈ convert_performance_structure [("s1", sampleBlankNoisy)] "T" :=
  c6_blank_subject_dropped [("s1", sampleBlankNoisy)] "T" "s1" sampleBlankNoisy
    (by decide) (by decide) rfl rfl

/-- C1 counterexample: in the run `envTwoVars`, the ambient clock is
read separately for each normalized variable, so subject `p1` of
variable `a` and subject `p2` of variable `b`, produced in the same run,
carry different `last_updated` timestamps. -/
theorem c1_per_call_timestamp_counterexample :
    subjectTimestamp ((fuse_schemas envTwoVars).written.getD []) "a" "p1" = some "0"
    ∧ subjectTimestamp ((fuse_schemas envTwoVars).written.getD []) "b" "p2" = some "1"
    ∧ ("0" : String) ≠ "1" := by
  refine ⟨rfl, rfl, by decide⟩

/-- C2 counterexample: in the run `envFirstBare`, the first entry of
`variables_with_performance` is the placeholder `a` with no performance
field while the later entry `b` has an attached performance record with
subject key `p1`; the reported subject-ID set is nevertheless empty,
because the code inspects only `variables_with_performance[:1]`. -/
theorem c2_first_entry_counterexample :
    (fuse_schemas envFirstBare).patients = []
    ∧ (fuse_loop envFirstBare.clock [] (envFirstBare.perfLoad.getD [])).variables_with_performance
        = ["a", "b"]
    ∧ lookupKey
        (fuse_loop envFirstBare.clock [] (envFirstBare.perfLoad.getD [])).properties "b"
      = some { fields := (create_placeholder_variable "b").fields
               performance := some [("p1", { flags := ["match"], last_updated := "T" })] } := by
  refine ⟨rfl, rfl, rfl⟩

/-- C8 counterexample: fusing an empty performance dataset into an empty
definition schema does not complete successfully — the coverage
computation divides by zero and the run crashes. -/
theorem c8_empty_schema_counterexample :
    (fuse_schemas envBothEmpty).result = .crash
    ∧ (fuse_schemas envBothEmpty).result ≠ .success false
    ∧ (fuse_schemas envBothEmpty).result ≠ .success true := by
  refine ⟨rfl, by decide, by decide⟩

/-! ### Characterization of one fusion step -/

theorem fuseStep_of_contains_some (clock : Nat → String) (st : FuseState)
    {k : String} {e : PerfEntry} {pd : List (String × PatientData)}
    (hc : containsKey st.properties k = true) (hp : e.performance = some pd) :
    fuseStep clock st (k, e) =
      { st with
          properties := setPerf st.properties k
            (convert_performance_structure pd (clock st.clockReads))
          fused_count := st.fused_count + 1
          variables_with_performance := st.variables_with_performance ++ [k]
          clockReads := st.clockReads + 1 } := by
  simp [fuseStep, hc, hp]

theorem fuseStep_of_contains_none (clock : Nat → String) (st : FuseState)
    {k : String} {e : PerfEntry}
    (hc : containsKey st.properties k = true) (hp : e.performance = none) :
    fuseStep clock st (k, e) = st := by
  simp [fuseStep, hc, hp]

theorem fuseStep_of_missing (clock : Nat → String) (st : FuseState)
    {k : String} {e : PerfEntry} (hc : containsKey st.properties k = false) :
    fuseStep clock st (k, e) =
      { st with
          properties := st.properties ++
            [(k, { fields := (create_placeholder_variable k).fields
                   performance := e.performance.map
                     (fun pd => convert_performance_structure pd (clock st.clockReads)) })]
          created_count := st.created_count + 1
          variables_with_performance := st.variables_with_performance ++ [k]
          missing_variables := st.missing_variables ++ [k]
          clockReads := st.clockReads + (if e.performance.isSome then 1 else 0) } := by
  cases hp : e.performance with
  | some pd => simp [fuseStep, hc, hp, create_placeholder_variable]
  | none => simp [fuseStep, hc, hp, create_placeholder_variable]

/-! ### Invariants of the fusion loop -/

theorem foldl_keys_missing_inv (clock : Nat → String) (perf : List (String × PerfEntry)) :
    ∀ (st : FuseState) (base : List String),
      st.properties.map Prod.fst = base ++ st.missing_variables →
      (perf.foldl (fuseStep clock) st).properties.map Prod.fst
        = base ++ (perf.foldl (fuseStep clock) st).missing_variables := by
  induction perf with
  | nil => exact fun st base h => h
  | cons e rest ih =>
      intro st base h
      rw [List.foldl_cons]
      apply ih
      obtain ⟨k, pe⟩ := e
      cases hc : containsKey st.properties k with
      | true =>
          cases hp : pe.performance with
          | some pd =>
              rw [fuseStep_of_contains_some clock st hc hp]
              simpa [setPerf_map_fst] using h
          | none =>
              rw [fuseStep_of_contains_none clock st hc hp]
              exact h
      | false =>
          rw [fuseStep_of_missing clock st hc]
          simp only [List.map_append, List.map_cons, List.map_nil, h, List.append_assoc]

theorem fuse_loop_keys (clock : Nat → String)
    (props0 : List (String × VariableDefinition)) (perf : List (String × PerfEntry)) :
    (fuse_loop clock props0 perf).properties.map Prod.fst
      = props0.map Prod.fst ++ (fuse_loop clock props0 perf).missing_variables :=
  foldl_keys_missing_inv clock perf (initState props0) (props0.map Prod.fst)
    (by simp [initState])

theorem foldl_missing_extend (clock : Nat → String) (perf : List (String × PerfEntry)) :
    ∀ st : FuseState, ∃ l,
      (perf.foldl (fuseStep clock) st).missing_variables = st.missing_variables ++ l := by
  induction perf with
  | nil => exact fun st => ⟨[], (List.append_nil _).symm⟩
  | cons e rest ih =>
      intro st
      rw [List.foldl_cons]
      obtain ⟨k, pe⟩ := e
      cases hc : containsKey st.properties k with
      | true =>
          cases hp : pe.performance with
          | some pd =>
              obtain ⟨l, hl⟩ := ih (fuseStep clock st (k, pe))
              exact ⟨l, by rw [hl, fuseStep_of_contains_some clock st hc hp]⟩
          | none =>
              obtain ⟨l, hl⟩ := ih (fuseStep clock st (k, pe))
              exact ⟨l, by rw [hl, fuseStep_of_contains_none clock st hc hp]⟩
      | false =>
          obtain ⟨l, hl⟩ := ih (fuseStep clock st (k, pe))
          refine ⟨[k] ++ l, ?_⟩
          rw [hl, fuseStep_of_missing clock st hc]
          simp

theorem foldl_stats (clock : Nat → String)
    (props0 : List (String × VariableDefinition)) (perf : List (String × PerfEntry)) :
    ∀ st : FuseState,
      st.properties.map Prod.fst = props0.map Prod.fst ++ st.missing_variables →
      (∀ e ∈ perf, e.1 ∉ st.missing_variables) →
      (perf.map Prod.fst).Nodup →
      ((perf.foldl (fuseStep clock) st).missing_variables
          = st.missing_variables
            ++ (perf.filter (fun e => !containsKey props0 e.1)).map Prod.fst)
      ∧ ((perf.foldl (fuseStep clock) st).variables_with_performance
          = st.variables_with_performance
            ++ (perf.filter
                (fun e => !containsKey props0 e.1 || e.2.performance.isSome)).map Prod.fst)
      ∧ ((perf.foldl (fuseStep clock) st).created_count
          = st.created_count + (perf.filter (fun e => !containsKey props0 e.1)).length)
      ∧ ((perf.foldl (fuseStep clock) st).fused_count
          = st.fused_count
            + (perf.filter
                (fun e => containsKey props0 e.1 && e.2.performance.isSome)).length) := by
  induction perf with
  | nil => intro st h hdisj hnd; simp
  | cons e rest ih =>
      intro st h hdisj hnd
      obtain ⟨k, pe⟩ := e
      have hnotmiss : k ∉ st.missing_variables := hdisj (k, pe) (List.mem_cons_self _ _)
      have hknotrest : k ∉ rest.map Prod.fst := by
        rw [List.map_cons, List.nodup_cons] at hnd
        exact hnd.1
      have hndrest : (rest.map Prod.fst).Nodup := by
        rw [List.map_cons, List.nodup_cons] at hnd
        exact hnd.2
      have hc1 : containsKey st.properties k = containsKey props0 k := by
        cases hc0 : containsKey props0 k with
        | true =>
            rw [containsKey_iff] at hc0 ⊢
            rw [h, List.mem_append]
            exact Or.inl hc0
        | false =>
            rw [containsKey_false_iff] at hc0 ⊢
            rw [h, List.mem_append]
            rintro (h1 | h2)
            · exact hc0 h1
            · exact hnotmiss h2
      rw [List.foldl_cons]
      cases hc0 : containsKey props0 k with
      | true =>
          rw [hc0] at hc1
          cases hp : pe.performance with
          | some pd =>
              have hkeys2 : (fuseStep clock st (k, pe)).properties.map Prod.fst
                  = props0.map Prod.fst ++ (fuseStep clock st (k, pe)).missing_variables := by
                rw [fuseStep_of_contains_some clock st hc1 hp]
                simpa [setPerf_map_fst] using h
              have hdisj2 : ∀ e' ∈ rest,
                  e'.1 ∉ (fuseStep clock st (k, pe)).missing_variables := by
                rw [fuseStep_of_contains_some clock st hc1 hp]
                exact fun e' he' => hdisj e' (List.mem_cons_of_mem _ he')
              obtain ⟨h1, h2, h3, h4⟩ := ih (fuseStep clock st (k, pe)) hkeys2 hdisj2 hndrest
              refine ⟨?_, ?_, ?_, ?_⟩
              · rw [h1, fuseStep_of_contains_some clock st hc1 hp]
                simp [List.filter_cons, hc0, hp]
              · rw [h2, fuseStep_of_contains_some clock st hc1 hp]
                simp [List.filter_cons, hc0, hp]
              · rw [h3, fuseStep_of_contains_some clock st hc1 hp]
                simp [List.filter_cons, hc0, hp]
              · rw [h4, fuseStep_of_contains_some clock st hc1 hp]
                simp [List.filter_cons, hc0, hp]
                omega
          | none =>
              rw [fuseStep_of_contains_none clock st hc1 hp]
              obtain ⟨h1, h2, h3, h4⟩ :=
                ih st h (fun e' he' => hdisj e' (List.mem_cons_of_mem _ he')) hndrest
              refine ⟨?_, ?_, ?_, ?_⟩
              · simpa [List.filter_cons, hc0, hp] using h1
              · simpa [List.filter_cons, hc0, hp] using h2
              · simpa [List.filter_cons, hc0, hp] using h3
              · simpa [List.filter_cons, hc0, hp] using h4
      | false =>
          rw [hc0] at hc1
          have hkeys2 : (fuseStep clock st (k, pe)).properties.map Prod.fst
              = props0.map Prod.fst ++ (fuseStep clock st (k, pe)).missing_variables := by
            rw [fuseStep_of_missing clock st hc1]
            simp [List.map_append, h, List.append_assoc]
          have hdisj2 : ∀ e' ∈ rest,
              e'.1 ∉ (fuseStep clock st (k, pe)).missing_variables := by
            rw [fuseStep_of_missing clock st hc1]
            intro e' he'
            simp only [List.mem_append, List.mem_singleton]
            rintro (h1 | h2)
            · exact hdisj e' (List.mem_cons_of_mem _ he') h1
            · exact hknotrest (h2 ▸ List.mem_map_of_mem Prod.fst he')
          obtain ⟨h1, h2, h3, h4⟩ := ih (fuseStep clock st (k, pe)) hkeys2 hdisj2 hndrest
          refine ⟨?_, ?_, ?_, ?_⟩
          · rw [h1, fuseStep_of_missing clock st hc1]
            simp [List.filter_cons, hc0]
          · rw [h2, fuseStep_of_missing clock st hc1]
            simp [List.filter_cons, hc0]
          · rw [h3, fuseStep_of_missing clock st hc1]
            simp [List.filter_cons, hc0]
            omega
          · rw [h4, fuseStep_of_missing clock st hc1]
            simp [List.filter_cons, hc0]

theorem fuse_loop_stats (clock : Nat → String)
    (props0 : List (String × VariableDefinition)) (perf : List (String × PerfEntry))
    (hnd : (perf.map Prod.fst).Nodup) :
    ((fuse_loop clock props0 perf).missing_variables
        = (perf.filter (fun e => !containsKey props0 e.1)).map Prod.fst)
    ∧ ((fuse_loop clock props0 perf).variables_with_performance
        = (perf.filter
            (fun e => !containsKey props0 e.1 || e.2.performance.isSome)).map Prod.fst)
    ∧ ((fuse_loop clock props0 perf).created_count
        = (perf.filter (fun e => !containsKey props0 e.1)).length)
    ∧ ((fuse_loop clock props0 perf).fused_count
        = (perf.filter
            (fun e => containsKey props0 e.1 && e.2.performance.isSome)).length) := by
  have h := foldl_stats clock props0 perf (initState props0)
    (by simp [initState]) (by simp [initState]) hnd
  simpa [fuse_loop, initState] using h

theorem fuseStep_lookup_ne (clock : Nat → String) (st : FuseState)
    (e : String × PerfEntry) {w : String} (h : e.1 ≠ w) :
    lookupKey (fuseStep clock st e).properties w = lookupKey st.properties w := by
  obtain ⟨k, pe⟩ := e
  cases hc : containsKey st.properties k with
  | true =>
      cases hp : pe.performance with
      | some pd =>
          rw [fuseStep_of_contains_some clock st hc hp]
          exact lookupKey_setPerf_ne _ _ _ (Ne.symm h)
      | none =>
          rw [fuseStep_of_contains_none clock st hc hp]
  | false =>
      rw [fuseStep_of_missing clock st hc]
      dsimp only
      cases hl : lookupKey st.properties w with
      | some v => exact lookupKey_append_of_some _ hl
      | none =>
          rw [lookupKey_append_of_none _ hl]
          exact lookupKey_singleton_ne _ h

theorem foldl_lookup_ne (clock : Nat → String) (perf : List (String × PerfEntry))
    {w : String} : ∀ st : FuseState, (∀ e ∈ perf, e.1 ≠ w) →
    lookupKey ((perf.foldl (fuseStep clock) st)).properties w
      = lookupKey st.properties w := by
  induction perf with
  | nil => intro st _; rfl
  | cons e rest ih =>
      intro st h
      rw [List.foldl_cons,
        ih (fuseStep clock st e) (fun e' he' => h e' (List.mem_cons_of_mem _ he')),
        fuseStep_lookup_ne clock st e (h e (List.mem_cons_self _ _))]

theorem fuse_lookup_spec (clock : Nat → String)
    (props0 : List (String × VariableDefinition)) (perf : List (String × PerfEntry))
    (hnd : (perf.map Prod.fst).Nodup) {v : String} {e : PerfEntry}
    (hmem : (v, e) ∈ perf) :
    (containsKey props0 v = false →
        ∃ k, lookupKey (fuse_loop clock props0 perf).properties v
          = some { fields := (create_placeholder_variable v).fields
                   performance := e.performance.map
                     (fun pd => convert_performance_structure pd (clock k)) })
    ∧ (containsKey props0 v = true → e.performance = none →
        lookupKey (fuse_loop clock props0 perf).properties v = lookupKey props0 v)
    ∧ (∀ pd, containsKey props0 v = true → e.performance = some pd →
        ∃ k d0, lookupKey props0 v = some d0 ∧
          lookupKey (fuse_loop clock props0 perf).properties v
            = some { d0 with
                performance := some (convert_performance_structure pd (clock k)) }) := by
  obtain ⟨l1, l2, rfl⟩ := List.append_of_mem hmem
  have hmapnd := hnd
  rw [List.map_append, List.map_cons, List.nodup_append] at hmapnd
  have hv1 : ∀ x ∈ l1, x.1 ≠ v := by
    intro x hx hxv
    exact hmapnd.2.2 (List.mem_map_of_mem Prod.fst hx)
      (by rw [hxv]; exact List.mem_cons_self _ _)
  have hv2 : ∀ x ∈ l2, x.1 ≠ v := by
    intro x hx hxv
    have hx1 : x.1 ∈ l2.map Prod.fst := List.mem_map_of_mem Prod.fst hx
    rw [hxv] at hx1
    exact (List.nodup_cons.mp hmapnd.2.1).1 hx1
  set st1 := l1.foldl (fuseStep clock) (initState props0) with hst1def
  have hloop : fuse_loop clock props0 (l1 ++ (v, e) :: l2)
      = l2.foldl (fuseStep clock) (fuseStep clock st1 (v, e)) := by
    rw [fuse_loop, List.foldl_append, List.foldl_cons]
  have hlook1 : lookupKey st1.properties v = lookupKey props0 v :=
    foldl_lookup_ne clock l1 (initState props0) hv1
  have hafter : ∀ st' : FuseState,
      lookupKey (l2.foldl (fuseStep clock) st').properties v
        = lookupKey st'.properties v :=
    fun st' => foldl_lookup_ne clock l2 st' hv2
  have hc1 : containsKey st1.properties v = containsKey props0 v := by
    rw [containsKey, containsKey, hlook1]
  refine ⟨?_, ?_, ?_⟩
  · intro hc
    refine ⟨st1.clockReads, ?_⟩
    rw [hloop, hafter, fuseStep_of_missing clock st1 (by rw [hc1]; exact hc)]
    have hnone : lookupKey st1.properties v = none := by
      have hfalse : containsKey st1.properties v = false := by rw [hc1]; exact hc
      rw [containsKey] at hfalse
      exact Option.not_isSome_iff_eq_none.mp (by simp [hfalse])
    dsimp only
    rw [lookupKey_append_of_none _ hnone]
    simp [lookupKey]
  · intro hc hp
    rw [hloop, hafter, fuseStep_of_contains_none clock st1 (by rw [hc1]; exact hc) hp,
      hlook1]
  · intro pd hc hp
    have hsome : ∃ d0, lookupKey props0 v = some d0 := by
      rw [← hlook1]
      have htrue : containsKey st1.properties v = true := by rw [hc1]; exact hc
      rw [containsKey] at htrue
      exact Option.isSome_iff_exists.mp htrue
    obtain ⟨d0, hd0⟩ := hsome
    refine ⟨st1.clockReads, d0, hd0, ?_⟩
    rw [hloop, hafter, fuseStep_of_contains_some clock st1 (by rw [hc1]; exact hc) hp]
    dsimp only
    rw [lookupKey_setPerf_self, hlook1, hd0]
    rfl

/-! ### Claims about the fusion loop -/

/-- C4: a performance-dataset key absent from the definition map is
always recorded as missing, gets a placeholder inserted, is counted in
`created_count` (which equals the number of missing variables) and is
added to `variables_with_performance`, even without a `performance`
sub-object; an existing key without a `performance` sub-object is left
untouched and counted nowhere — not in `missing_variables`, not in
`variables_with_performance`, and not in `fused_count`, which counts
exactly the entries that exist in the schema and carry a `performance`
sub-object (a predicate the untouched key fails). -/
theorem c4_missing_vs_existing (clock : Nat → String)
    (props0 : List (String × VariableDefinition)) (perf : List (String × PerfEntry))
    (hnd : (perf.map Prod.fst).Nodup) (v : String) (e : PerfEntry)
    (hmem : (v, e) ∈ perf) :
    (containsKey props0 v = false →
        v ∈ (fuse_loop clock props0 perf).missing_variables
        ∧ v ∈ (fuse_loop clock props0 perf).variables_with_performance
        ∧ containsKey (fuse_loop clock props0 perf).properties v = true
        ∧ (∃ d, lookupKey (fuse_loop clock props0 perf).properties v = some d
            ∧ d.fields = (create_placeholder_variable v).fields)
        ∧ (fuse_loop clock props0 perf).created_count
            = (fuse_loop clock props0 perf).missing_variables.length)
    ∧ (containsKey props0 v = true → e.performance = none →
        lookupKey (fuse_loop clock props0 perf).properties v = lookupKey props0 v
        ∧ v ∉ (fuse_loop clock props0 perf).missing_variables
        ∧ v ∉ (fuse_loop clock props0 perf).variables_with_performance
        ∧ (fuse_loop clock props0 perf).fused_count
            = (perf.filter (fun e' => containsKey props0 e'.1
                && e'.2.performance.isSome)).length
        ∧ (containsKey props0 v && e.performance.isSome) = false) := by
  obtain ⟨hmiss, hvwp, hcreated, hfused⟩ := fuse_loop_stats clock props0 perf hnd
  obtain ⟨hspec1, hspec2, -⟩ := fuse_lookup_spec clock props0 perf hnd hmem
  constructor
  · intro hc
    obtain ⟨k, hk⟩ := hspec1 hc
    refine ⟨?_, ?_, ?_, ⟨_, hk, rfl⟩, ?_⟩
    · rw [hmiss]
      exact List.mem_map_of_mem Prod.fst (List.mem_filter.mpr ⟨hmem, by simp [hc]⟩)
    · rw [hvwp]
      exact List.mem_map_of_mem Prod.fst (List.mem_filter.mpr ⟨hmem, by simp [hc]⟩)
    · rw [containsKey, hk]
      rfl
    · rw [hcreated, hmiss, List.length_map]
  · intro hc hp
    refine ⟨hspec2 hc hp, ?_, ?_, hfused, by rw [hc, hp]; rfl⟩
    · rw [hmiss]
      intro hmm
      obtain ⟨x, hxf, hx1⟩ := List.mem_map.mp hmm
      obtain ⟨-, hxpred⟩ := List.mem_filter.mp hxf
      rw [hx1, hc] at hxpred
      simp at hxpred
    · rw [hvwp]
      intro hvv
      obtain ⟨x, hxf, hx1⟩ := List.mem_map.mp hvv
      obtain ⟨hxperf, hxpred⟩ := List.mem_filter.mp hxf
      have hxv : (v, x.2) ∈ perf := by
        rw [← hx1]
        exact hxperf
      have hx2 : x.2 = e := keyval_unique hnd hxv hmem
      rw [hx1, hc, hx2, hp] at hxpred
      simp at hxpred

/-- Witness for C4: variable `a` is absent from the one-variable schema
and carries no performance sub-object, yet it is recorded as missing;
variable `x` exists in the schema and carries no performance sub-object,
and its definition is untouched. -/
theorem c4_missing_vs_existing_witness :
    "a" ∈ (fuse_loop (fun _ => "T") [("x", sampleDef)]
        [("a", { performance := none }), ("x", { performance := none })]).missing_variables
    ∧ lookupKey (fuse_loop (fun _ => "T") [("x", sampleDef)]
        [("a", { performance := none }), ("x", { performance := none })]).properties "x"
      = lookupKey [("x", sampleDef)] "x" := by
  have h1 := c4_missing_vs_existing (fun _ => "T") [("x", sampleDef)]
    [("a", { performance := none }), ("x", { performance := none })] (by decide)
    "a" { performance := none } (by decide)
  have h2 := c4_missing_vs_existing (fun _ => "T") [("x", sampleDef)]
    [("a", { performance := none }), ("x", { performance := none })] (by decide)
    "x" { performance := none } (by decide)
  exact ⟨(h1.1 (by decide)).1, (h2.2 (by decide) rfl).1⟩

theorem length_filter_or {α : Type} (l : List α) (p q : α → Bool)
    (hdis : ∀ a ∈ l, ¬(p a = true ∧ q a = true)) :
    (l.filter (fun a => p a || q a)).length
      = (l.filter p).length + (l.filter q).length := by
  induction l with
  | nil => rfl
  | cons a rest ih =>
      have hdr : ∀ b ∈ rest, ¬(p b = true ∧ q b = true) :=
        fun b hb => hdis b (List.mem_cons_of_mem _ hb)
      cases hp : p a with
      | true =>
          cases hq : q a with
          | true => exact absurd ⟨hp, hq⟩ (hdis a (List.mem_cons_self _ _))
          | false =>
              simp [List.filter_cons, hp, hq, ih hdr]
              omega
      | false =>
          cases hq : q a with
          | true =>
              simp [List.filter_cons, hp, hq, ih hdr]
              omega
          | false =>
              simp [List.filter_cons, hp, hq, ih hdr]

/-- C7: after fusion, `created_count` plus the count of existing
variables fused with attached performance is at most the length of
`variables_with_performance`, which is at most the total variable count
of the fused map; and `created_count` equals the number of
performance-dataset keys absent from the original definition schema. -/
theorem c7_counting (clock : Nat → String)
    (props0 : List (String × VariableDefinition)) (perf : List (String × PerfEntry))
    (hnd : (perf.map Prod.fst).Nodup) :
    (fuse_loop clock props0 perf).created_count
        + (fuse_loop clock props0 perf).fused_count
        ≤ (fuse_loop clock props0 perf).variables_with_performance.length
    ∧ (fuse_loop clock props0 perf).variables_with_performance.length
        ≤ (fuse_loop clock props0 perf).properties.length
    ∧ (fuse_loop clock props0 perf).created_count
        = (perf.filter (fun e => !containsKey props0 e.1)).length := by
  obtain ⟨hmiss, hvwp, hcreated, hfused⟩ := fuse_loop_stats clock props0 perf hnd
  have hdisPQ : ∀ a ∈ perf, ¬((!containsKey props0 a.1) = true
      ∧ (containsKey props0 a.1 && a.2.performance.isSome) = true) := by
    rintro a - ⟨hpa, hqa⟩
    rw [Bool.not_eq_true'] at hpa
    rw [hpa] at hqa
    simp at hqa
  have hlen : (perf.filter (fun e => !containsKey props0 e.1
        || (containsKey props0 e.1 && e.2.performance.isSome))).length
      = (perf.filter (fun e => !containsKey props0 e.1)).length
        + (perf.filter (fun e => containsKey props0 e.1
            && e.2.performance.isSome)).length :=
    length_filter_or perf _ _ hdisPQ
  have hcongr : perf.filter (fun e => !containsKey props0 e.1 || e.2.performance.isSome)
      = perf.filter (fun e => !containsKey props0 e.1
          || (containsKey props0 e.1 && e.2.performance.isSome)) := by
    apply List.filter_congr
    intro a _
    cases hc : containsKey props0 a.1 <;> cases hs : a.2.performance.isSome <;>
      simp [hc, hs]
  have hvwplen : (fuse_loop clock props0 perf).variables_with_performance.length
      = (perf.filter (fun e => !containsKey props0 e.1)).length
        + (perf.filter (fun e => containsKey props0 e.1
            && e.2.performance.isSome)).length := by
    rw [hvwp, List.length_map, hcongr, hlen]
  have hmisslen : (fuse_loop clock props0 perf).missing_variables.length
      = (perf.filter (fun e => !containsKey props0 e.1)).length := by
    rw [hmiss, List.length_map]
  have hproplen : (fuse_loop clock props0 perf).properties.length
      = props0.length + (fuse_loop clock props0 perf).missing_variables.length := by
    have hk := congrArg List.length (fuse_loop_keys clock props0 perf)
    simpa [List.length_map, List.length_append] using hk
  have hqnodup : ((perf.filter (fun e => containsKey props0 e.1
      && e.2.performance.isSome)).map Prod.fst).Nodup :=
    hnd.sublist ((List.filter_sublist perf).map Prod.fst)
  have hqsub : (perf.filter (fun e => containsKey props0 e.1
      && e.2.performance.isSome)).map Prod.fst ⊆ props0.map Prod.fst := by
    intro x hx
    obtain ⟨y, hyf, hy1⟩ := List.mem_map.mp hx
    obtain ⟨-, hypred⟩ := List.mem_filter.mp hyf
    have hcy : containsKey props0 y.1 = true := by
      cases hcc : containsKey props0 y.1 with
      | true => rfl
      | false => rw [hcc] at hypred; simp at hypred
    rw [← hy1]
    exact (containsKey_iff _ _).mp hcy
  have hqle : (perf.filter (fun e => containsKey props0 e.1
      && e.2.performance.isSome)).length ≤ props0.length := by
    have h1 := (hqnodup.subperm hqsub).length_le
    simpa [List.length_map] using h1
  refine ⟨?_, ?_, hcreated⟩
  · rw [hcreated, hfused, hvwplen]
  · omega

/-- C2 (amended): the reported subject-ID set is determined by the first
entry of `variables_with_performance` alone — it is empty when the list
is empty or when the first variable's raw dataset entry carried no
`performance` sub-object, and otherwise equals the key set of that first
variable's normalized performance record. -/
theorem c2_patient_set (clock : Nat → String)
    (props0 : List (String × VariableDefinition)) (perf : List (String × PerfEntry))
    (hnd : (perf.map Prod.fst).Nodup) :
    ((fuse_loop clock props0 perf).variables_with_performance = [] →
        computePatients (fuse_loop clock props0 perf).properties
          (fuse_loop clock props0 perf).variables_with_performance = [])
    ∧ (∀ v rest, (fuse_loop clock props0 perf).variables_with_performance = v :: rest →
        ∃ e, (v, e) ∈ perf
          ∧ (e.performance = none →
              computePatients (fuse_loop clock props0 perf).properties
                (fuse_loop clock props0 perf).variables_with_performance = [])
          ∧ (∀ pd, e.performance = some pd →
              ∃ k, computePatients (fuse_loop clock props0 perf).properties
                  (fuse_loop clock props0 perf).variables_with_performance
                = (convert_performance_structure pd (clock k)).map Prod.fst)) := by
  obtain ⟨hmiss, hvwp, -, -⟩ := fuse_loop_stats clock props0 perf hnd
  constructor
  · intro hv
    rw [hv]
    rfl
  · intro v rest hv
    have hvmem : v ∈ (fuse_loop clock props0 perf).variables_with_performance := by
      rw [hv]
      exact List.mem_cons_self _ _
    rw [hvwp] at hvmem
    obtain ⟨x, hxf, hx1⟩ := List.mem_map.mp hvmem
    obtain ⟨hxperf, hxpred⟩ := List.mem_filter.mp hxf
    have hxv : (v, x.2) ∈ perf := by
      rw [← hx1]
      exact hxperf
    refine ⟨x.2, hxv, ?_, ?_⟩
    · intro hp
      have hc : containsKey props0 v = false := by
        rw [hp] at hxpred
        rw [hx1] at hxpred
        simpa [Bool.not_eq_true'] using hxpred
      obtain ⟨hs1, -, -⟩ := fuse_lookup_spec clock props0 perf hnd hxv
      obtain ⟨k, hk⟩ := hs1 hc
      rw [hp] at hk
      simp [computePatients, hv, hk]
    · intro pd hp
      have hcases := fuse_lookup_spec clock props0 perf hnd hxv
      cases hcc : containsKey props0 v with
      | false =>
          obtain ⟨k, hk⟩ := hcases.1 hcc
          rw [hp] at hk
          refine ⟨k, ?_⟩
          simp [computePatients, hv, hk]
      | true =>
          obtain ⟨k, d0, hd0, hk⟩ := hcases.2.2 pd hcc hp
          refine ⟨k, ?_⟩
          simp [computePatients, hv, hk]

/-- Witness for C2 (amended): a run whose single touched variable has a
performance sub-object reports exactly that record's subject keys. -/
theorem c2_patient_set_witness :
    computePatients
        (fuse_loop (fun _ => "T") []
          [("b", { performance := some [("p1", sampleMatched)] })]).properties
        (fuse_loop (fun _ => "T") []
          [("b", { performance := some [("p1", sampleMatched)] })]).variables_with_performance
      = ["p1"] := by
  have h := (c2_patient_set (fun _ => "T") []
      [("b", { performance := some [("p1", sampleMatched)] })] (by decide)).2 "b" []
      (by decide)
  obtain ⟨e, hmem, -, h2⟩ := h
  have he : e = { performance := some [("p1", sampleMatched)] } :=
    congrArg Prod.snd (List.mem_singleton.mp hmem)
  subst he
  obtain ⟨k, hk⟩ := h2 [("p1", sampleMatched)] rfl
  rw [hk]
  rfl

/-- C1 (amended): each normalization call computes one timestamp at call
entry and stamps it identically on every SubjectOutcome it produces, so
all subjects within one variable's record share a timestamp; but ambient
time is read once per normalization call (per variable with a
performance sub-object), not once per run, so records of different
variables in the same run may carry different timestamps. -/
theorem c1_per_call_timestamp (clock : Nat → String)
    (props0 : List (String × VariableDefinition)) (perf : List (String × PerfEntry))
    (hnd : (perf.map Prod.fst).Nodup) :
    (∀ pd ts p, p ∈ convert_performance_structure pd ts → p.2.last_updated = ts)
    ∧ (∀ v ∈ (fuse_loop clock props0 perf).variables_with_performance,
        ∀ d, lookupKey (fuse_loop clock props0 perf).properties v = some d →
        ∀ rec, d.performance = some rec →
        ∀ p ∈ rec, ∀ q ∈ rec, p.2.last_updated = q.2.last_updated) := by
  obtain ⟨hmiss, hvwp, -, -⟩ := fuse_loop_stats clock props0 perf hnd
  refine ⟨fun pd ts p hp => (convert_outcome p hp).1, ?_⟩
  intro v hv d hd rec hrec p hp q hq
  rw [hvwp] at hv
  obtain ⟨x, hxf, hx1⟩ := List.mem_map.mp hv
  obtain ⟨hxperf, hxpred⟩ := List.mem_filter.mp hxf
  have hxv : (v, x.2) ∈ perf := by
    rw [← hx1]
    exact hxperf
  have hspec := fuse_lookup_spec clock props0 perf hnd hxv
  cases hcc : containsKey props0 v with
  | false =>
      obtain ⟨k, hk⟩ := hspec.1 hcc
      have hdrec := Option.some_injective _ (hd.symm.trans hk)
      rw [hdrec] at hrec
      cases hxp : x.2.performance with
      | none =>
          rw [hxp] at hrec
          simp at hrec
      | some pdx =>
          rw [hxp] at hrec
          have hrec2 : convert_performance_structure pdx (clock k) = rec :=
            Option.some_injective _ hrec
          rw [← hrec2] at hp hq
          rw [(convert_outcome p hp).1, (convert_outcome q hq).1]
  | true =>
      cases hxp : x.2.performance with
      | none =>
          rw [hx1, hcc, hxp] at hxpred
          simp at hxpred
      | some pdx =>
          obtain ⟨k, d0, hd0, hk⟩ := hspec.2.2 pdx hcc hxp
          have hdrec := Option.some_injective _ (hd.symm.trans hk)
          rw [hdrec] at hrec
          have hrec2 : convert_performance_structure pdx (clock k) = rec :=
            Option.some_injective _ hrec
          rw [← hrec2] at hp hq
          rw [(convert_outcome p hp).1, (convert_outcome q hq).1]

/-- Witness for C1 (amended): the two subjects of one variable's record
carry the same timestamp in a concrete run. -/
theorem c1_per_call_timestamp_witness :
    ("p1", ({ flags := ["match"], last_updated := "0" } : SubjectOutcome)).2.last_updated
      = ("p2", ({ flags := ["match"], last_updated := "0" } : SubjectOutcome)).2.last_updated := by
  have h := (c1_per_call_timestamp (fun n => toString n) []
      [("a", { performance := some [("p1", sampleMatched), ("p2", sampleMatched)] })]
      (by decide)).2
  exact h "a" (by decide)
    { fields := (create_placeholder_variable "a").fields
      performance := some [("p1", { flags := ["match"], last_updated := "0" }),
                           ("p2", { flags := ["match"], last_updated := "0" })] }
    rfl
    [("p1", { flags := ["match"], last_updated := "0" }),
     ("p2", { flags := ["match"], last_updated := "0" })]
    rfl
    ("p1", { flags := ["match"], last_updated := "0" }) (by decide)
    ("p2", { flags := ["match"], last_updated := "0" }) (by decide)

/-! ### Claims about the whole run -/

/-- C8 (amended): fusing a performance dataset with zero entries into a
non-empty definition schema is an identity on the schema — the written
document equals the loaded variable map, with no performance fields
added — and the run completes successfully; when the schema is also
empty the run instead crashes on the unguarded coverage division. -/
theorem c8_empty_dataset_identity (env : RunEnv) (ms : MainSchema)
    (h1 : env.mainLoad = some ms) (h2 : env.perfLoad = some [])
    (h3 : env.outputWriteOk = true) (h4 : ms.getProperties ≠ []) :
    (fuse_schemas env).result = .success false
    ∧ (fuse_schemas env).written = some ms.getProperties := by
  constructor <;>
    simp [fuse_schemas, h1, h2, h3, fuse_loop, initState, List.length_eq_zero, h4]

/-- Witness for C8 (amended) at a concrete one-variable schema. -/
theorem c8_empty_dataset_identity_witness :
    (fuse_schemas envEmptyDataset).result = .success false
    ∧ (fuse_schemas envEmptyDataset).written = some [("age", sampleDef)] :=
  c8_empty_dataset_identity envEmptyDataset (.bare [("age", sampleDef)]) rfl rfl rfl
    (by decide)

/-- C9: failure of the missing-variables report write is non-fatal — a
run whose loads and primary output write succeed and whose report write
is attempted still returns success with exit code 0, only with a
warning — while failure of either input load or of the primary output
write makes the whole run fail with exit code 1. -/
theorem c9_report_failure_nonfatal (env : RunEnv) :
    (env.mainLoad = none → (fuse_schemas env).result = .failure
        ∧ exitCode (fuse_schemas env).result = 1)
    ∧ (∀ ms, env.mainLoad = some ms → env.perfLoad = none →
        (fuse_schemas env).result = .failure ∧ exitCode (fuse_schemas env).result = 1)
    ∧ (∀ ms perf, env.mainLoad = some ms → env.perfLoad = some perf →
        env.outputWriteOk = false →
        (fuse_schemas env).result = .failure ∧ exitCode (fuse_schemas env).result = 1)
    ∧ (∀ ms perf, env.mainLoad = some ms → env.perfLoad = some perf →
        env.outputWriteOk = true →
        (fuse_loop env.clock ms.getProperties perf).missing_variables ≠ [] →
        (fuse_schemas env).result = .success (!env.reportWriteOk)
        ∧ exitCode (fuse_schemas env).result = 0) := by
  refine ⟨?_, ?_, ?_, ?_⟩
  · intro h
    simp [fuse_schemas, h, exitCode]
  · intro ms h1 h2
    simp [fuse_schemas, h1, h2, exitCode]
  · intro ms perf h1 h2 h3
    simp [fuse_schemas, h1, h2, h3, exitCode]
  · intro ms perf h1 h2 h3 hmiss
    have hk := congrArg List.length (fuse_loop_keys env.clock ms.getProperties perf)
    simp only [List.length_map, List.length_append] at hk
    have hmlen : (fuse_loop env.clock ms.getProperties perf).missing_variables.length
        ≠ 0 := by
      simpa [List.length_eq_zero] using hmiss
    have hlen : (fuse_loop env.clock ms.getProperties perf).properties.length ≠ 0 := by
      omega
    constructor <;>
      simp [fuse_schemas, h1, h2, h3, hlen, List.isEmpty_iff, hmiss, exitCode]

/-- Witness for C9: a concrete run that creates one placeholder, whose
report write fails, still succeeds with exit code 0 and the warning
flag set. -/
theorem c9_report_failure_nonfatal_witness :
    (fuse_schemas envReportFails).result = .success true
    ∧ exitCode (fuse_schemas envReportFails).result = 0 :=
  (c9_report_failure_nonfatal envReportFails).2.2.2 (.bare [])
    [("w", { performance := none })] rfl rfl rfl (by decide)

/-- C10: when both the definition schema's variable map and the
performance dataset are empty, the run never completes successfully —
the fused variable map has length zero, so if the output write succeeds
the coverage computation divides by zero and the run crashes. -/
theorem c10_empty_inputs_crash (env : RunEnv) (ms : MainSchema)
    (h1 : env.mainLoad = some ms) (hp : ms.getProperties = [])
    (h2 : env.perfLoad = some []) :
    (fuse_schemas env).result ≠ .success true
    ∧ (fuse_schemas env).result ≠ .success false
    ∧ (env.outputWriteOk = true → (fuse_schemas env).result = .crash)
    ∧ (fuse_loop env.clock ms.getProperties []).properties.length = 0 := by
  have hlen : (fuse_loop env.clock ms.getProperties []).properties.length = 0 := by
    simp [fuse_loop, initState, hp]
  cases hw : env.outputWriteOk with
  | true =>
      refine ⟨?_, ?_, fun _ => ?_, hlen⟩ <;>
        simp [fuse_schemas, h1, h2, hw, fuse_loop, initState, hp]
  | false =>
      refine ⟨?_, ?_, fun hh => ?_, hlen⟩
      · simp [fuse_schemas, h1, h2, hw]
      · simp [fuse_schemas, h1, h2, hw]
      · exact Bool.noConfusion hh

/-- Witness for C10 at the concrete empty-inputs run. -/
theorem c10_empty_inputs_crash_witness :
    (fuse_schemas envBothEmptyCrash).result = .crash :=
  (c10_empty_inputs_crash envBothEmptyCrash (.bare []) rfl rfl rfl).2.2.1 rfl

/-- Witness for C7 at a concrete run with one fused and one created
variable. -/
theorem c7_counting_witness :
    (fuse_loop (fun _ => "T") [("x", sampleDef)]
        [("x", { performance := some [] }), ("y", { performance := none })]).created_count
      + (fuse_loop (fun _ => "T") [("x", sampleDef)]
          [("x", { performance := some [] }), ("y", { performance := none })]).fused_count
      ≤ (fuse_loop (fun _ => "T") [("x", sampleDef)]
          [("x", { performance := some [] }),
           ("y", { performance := none })]).variables_with_performance.length
    ∧ (fuse_loop (fun _ => "T") [("x", sampleDef)]
        [("x", { performance := some [] }),
         ("y", { performance := none })]).variables_with_performance.length
      ≤ (fuse_loop (fun _ => "T") [("x", sampleDef)]
          [("x", { performance := some [] }), ("y", { performance := none })]).properties.length
    ∧ (fuse_loop (fun _ => "T") [("x", sampleDef)]
        [("x", { performance := some [] }), ("y", { performance := none })]).created_count
      = ([("x", ({ performance := some [] } : PerfEntry)),
          ("y", ({ performance := none } : PerfEntry))].filter
          (fun e => !containsKey [("x", sampleDef)] e.1)).length :=
  c7_counting (fun _ => "T") [("x", sampleDef)]
    [("x", { performance := some [] }), ("y", { performance := none })] (by decide)
